import Mathlib

/-!
Verification of the UDP/RTP → HTTP streaming core of `tvgate`
(`src/stream/udp_rtp.go`), as a shallow embedding in Lean 4.

Bytes are modelled as natural numbers; Go byte values lie below 256, and
every theorem here holds for all naturals, hence in particular for byte
values.  Buffers are lists of bytes.  Indexing uses `byteAt`, which
returns 0 out of range; in the embedded code every access is guarded by a
length check taken from the Go source, so the default is never consulted
on the paths the theorems describe.
-/

/-- Bytes are modelled as unbounded natural numbers. -/
abbrev Byte := Nat

/-- Read `buf[i]`, with default 0 out of range. -/
def byteAt (buf : List Byte) (i : Nat) : Byte := buf.getD i 0

/-- MPEG audio payload type, constant `P_MPGA` of `udp_rtp.go`. -/
def P_MPGA : Nat := 0x0E

/-- MPEG video payload type, constant `P_MPGV` of `udp_rtp.go`. -/
def P_MPGV : Nat := 0x20

/-- RTP version, constant `RTP_VERSION` of `udp_rtp.go`. -/
def RTP_VERSION : Nat := 2

/-- Hub state: stopped.  The state constants are referenced throughout
`udp_rtp.go`; the commented block at its top records their values
(`StateStopped = 0`, `StatePlaying = 1`, `StateError = 2`). -/
def StateStopped : Nat := 0

/-- Hub state: playing. -/
def StatePlaying : Nat := 1

/-- Hub state: error. -/
def StateError : Nat := 2

/-- Padding length of an RTP packet: when the padding bit of `buf[0]` is
set, the value of the last byte, else 0 (padding block of
`rtpPayloadGet`, udp_rtp.go:320-325). -/
def rtpPadLen (buf : List Byte) : Nat :=
  if (byteAt buf 0 >>> 5) &&& 0x01 = 1 then
    if buf.length > 0 then byteAt buf (buf.length - 1) else 0
  else 0

/-- RTP header length `12 + 4·CC` where `CC = buf[0] & 0x0F`
(udp_rtp.go:306-307). -/
def rtpHeaderLen (buf : List Byte) : Nat := 12 + 4 * (byteAt buf 0 &&& 0x0F)

/-- Extension length in 32-bit words: big-endian 16-bit integer at
offsets `rtpHeaderLen+2, rtpHeaderLen+3` (udp_rtp.go:315). -/
def rtpExtWords (buf : List Byte) : Nat :=
  byteAt buf (rtpHeaderLen buf + 2) * 256 + byteAt buf (rtpHeaderLen buf + 3)

/-- Final validity check of `rtpPayloadGet`: fail when
`startOff + endOff > len(buf)`, otherwise return the offsets
(udp_rtp.go:327-331). -/
def finishPayload (buf : List Byte) (startOff : Nat) : Except String (Nat × Nat) :=
  if startOff + rtpPadLen buf > buf.length then .error "invalid RTP packet structure"
  else .ok (startOff, rtpPadLen buf)

/-- Embedding of `rtpPayloadGet` (udp_rtp.go:294-332): payload start
offset and padding size of an RTP packet. -/
def rtpPayloadGet (buf : List Byte) : Except String (Nat × Nat) :=
  if buf.length < 12 then .error "buffer too small"
  else if (byteAt buf 0 >>> 6) &&& 0x03 ≠ RTP_VERSION then .error "invalid RTP version"
  else if (byteAt buf 0 >>> 4) &&& 0x01 = 1 then
    if rtpHeaderLen buf + 4 > buf.length then .error "buffer too small for extension header"
    else finishPayload buf (rtpHeaderLen buf + 4 + 4 * rtpExtWords buf)
  else finishPayload buf (rtpHeaderLen buf)

/-- Tail of `processRTPPacket`: final window checks and the slice copy
(udp_rtp.go:376-386). -/
def rtpFinish (data : List Byte) (startOff endOff : Nat) : List Byte :=
  if startOff < data.length ∧ endOff < data.length ∧ startOff < data.length - endOff then
    if data.length - startOff - endOff < 188 then data
    else (data.drop startOff).take (data.length - startOff - endOff)
  else data

/-- Embedding of `(*StreamHub).processRTPPacket` (udp_rtp.go:337-387).
The method reads no hub state, so it is modelled as a pure function. -/
def processRTPPacket (data : List Byte) : List Byte :=
  if data.length < 188 then data
  else if byteAt data 0 = 0x47 then data
  else if data.length < 12 then data
  else if (byteAt data 0 >>> 6) &&& 0x03 ≠ RTP_VERSION then data
  else
    match rtpPayloadGet data with
    | .error _ => data
    | .ok (startOff, endOff) =>
      rtpFinish data
        (if (byteAt data 1 &&& 0x7F = P_MPGA ∨ byteAt data 1 &&& 0x7F = P_MPGV)
            ∧ startOff + 4 < data.length - endOff
         then startOff + 4 else startOff)
        endOff

theorem finishPayload_ok {buf : List Byte} {s0 s e : Nat}
    (h : finishPayload buf s0 = .ok (s, e)) :
    s = s0 ∧ e = rtpPadLen buf ∧ s + e ≤ buf.length := by
  unfold finishPayload at h
  split at h
  · exact absurd h (by simp)
  · rename_i hle
    rw [Except.ok.injEq, Prod.mk.injEq] at h
    obtain ⟨h1, h2⟩ := h
    exact ⟨h1.symm, h2.symm, by omega⟩

theorem rtpPayloadGet_ok_le {buf : List Byte} {s e : Nat}
    (h : rtpPayloadGet buf = .ok (s, e)) : s + e ≤ buf.length := by
  unfold rtpPayloadGet at h
  split at h
  · exact absurd h (by simp)
  · split at h
    · exact absurd h (by simp)
    · split at h
      · split at h
        · exact absurd h (by simp)
        · exact (finishPayload_ok h).2.2
      · exact (finishPayload_ok h).2.2

theorem rtpFinish_window {data : List Byte} {s e : Nat} (hse : s + e ≤ data.length) :
    rtpFinish data s e =
      if 188 ≤ data.length - s - e then (data.drop s).take (data.length - s - e)
      else data := by
  unfold rtpFinish
  by_cases hw : 188 ≤ data.length - s - e
  · rw [if_pos hw, if_pos (by omega), if_neg (by omega)]
  · rw [if_neg hw]
    by_cases hg : s < data.length ∧ e < data.length ∧ s < data.length - e
    · rw [if_pos hg, if_pos (by omega)]
    · rw [if_neg hg]

/-- C1: for a well-formed RTP datagram — length ≥ 188, first byte not the
TS sync byte 0x47, RTP version 2, payload type outside {0x0E, 0x20},
`rtpPayloadGet` succeeding with offsets `(s, e)` — `processRTPPacket`
returns the window `d[s : len d − e]` when that window holds at least 188
bytes, and returns `d` unchanged otherwise. -/
theorem processRTPPacket_rtp_window (d : List Byte) (s e : Nat)
    (h188 : 188 ≤ d.length)
    (h47 : byteAt d 0 ≠ 0x47)
    (hver : (byteAt d 0 >>> 6) &&& 0x03 = RTP_VERSION)
    (hpa : byteAt d 1 &&& 0x7F ≠ P_MPGA)
    (hpv : byteAt d 1 &&& 0x7F ≠ P_MPGV)
    (hok : rtpPayloadGet d = .ok (s, e)) :
    processRTPPacket d =
      if 188 ≤ d.length - s - e then (d.drop s).take (d.length - s - e) else d := by
  have hse := rtpPayloadGet_ok_le hok
  unfold processRTPPacket
  rw [if_neg (by omega), if_neg h47, if_neg (by omega), if_neg (by simp [hver])]
  simp only [hok]
  conv_lhs => rw [if_neg (fun hc => hc.1.elim hpa hpv)]
  exact rtpFinish_window hse

/-- Sample RTP header for scenario S5: version 2, no padding, no
extension, zero CSRC, payload type 0x60, sequence number 1. -/
def sampleRTPHeader : List Byte := [0x80, 0x60, 0x00, 0x01, 0, 0, 0, 0, 0, 0, 0, 0]

/-- Sample MPEG-TS packet of 188 bytes starting with the sync byte. -/
def sampleTS : List Byte := 0x47 :: 0x40 :: List.replicate 186 0

/-- Sample datagram of scenario S5: RTP header followed by one TS packet. -/
def sampleRTP : List Byte := sampleRTPHeader ++ sampleTS

theorem rtpFinish_cases (d : List Byte) (s e : Nat) :
    rtpFinish d s e = d ∨
      (s + e + 188 ≤ d.length ∧ rtpFinish d s e = (d.drop s).take (d.length - s - e) ∧
        (rtpFinish d s e).length = d.length - s - e) := by
  unfold rtpFinish
  by_cases hg : s < d.length ∧ e < d.length ∧ s < d.length - e
  · rw [if_pos hg]
    by_cases hw : d.length - s - e < 188
    · rw [if_pos hw]; exact Or.inl rfl
    · rw [if_neg hw]
      refine Or.inr ⟨by omega, rfl, ?_⟩
      rw [List.length_take, List.length_drop]
      omega
  · rw [if_neg hg]; exact Or.inl rfl

/-- C9: on every input byte sequence, `processRTPPacket` (a total
function, and via `rtpPayloadGet_ok_le` one whose slice bounds are always
in range) returns either the input itself or the window
`d[s : len d − e]`, of length `len d − s − e ≥ 188`. -/
theorem processRTPPacket_safe (d : List Byte) :
    processRTPPacket d = d ∨
      ∃ s e, s + e + 188 ≤ d.length ∧
        processRTPPacket d = (d.drop s).take (d.length - s - e) ∧
        (processRTPPacket d).length = d.length - s - e := by
  by_cases h1 : d.length < 188
  · left; unfold processRTPPacket; rw [if_pos h1]
  by_cases h2 : byteAt d 0 = 0x47
  · left; unfold processRTPPacket; rw [if_neg h1, if_pos h2]
  by_cases h3 : d.length < 12
  · left; unfold processRTPPacket; rw [if_neg h1, if_neg h2, if_pos h3]
  by_cases h4 : (byteAt d 0 >>> 6) &&& 0x03 ≠ RTP_VERSION
  · left; unfold processRTPPacket; rw [if_neg h1, if_neg h2, if_neg h3, if_pos h4]
  cases hok : rtpPayloadGet d with
  | error msg =>
    left; unfold processRTPPacket
    rw [if_neg h1, if_neg h2, if_neg h3, if_neg h4]
    simp only [hok]
  | ok p =>
    obtain ⟨s0, e0⟩ := p
    have hred : processRTPPacket d = rtpFinish d
        (if (byteAt d 1 &&& 0x7F = P_MPGA ∨ byteAt d 1 &&& 0x7F = P_MPGV)
            ∧ s0 + 4 < d.length - e0 then s0 + 4 else s0) e0 := by
      unfold processRTPPacket
      rw [if_neg h1, if_neg h2, if_neg h3, if_neg h4]
      simp only [hok]
    rw [hred]
    rcases rtpFinish_cases d
        (if (byteAt d 1 &&& 0x7F = P_MPGA ∨ byteAt d 1 &&& 0x7F = P_MPGV)
            ∧ s0 + 4 < d.length - e0 then s0 + 4 else s0) e0 with h | ⟨hle, heq, hlen⟩
    · exact Or.inl h
    · exact Or.inr ⟨_, e0, hle, heq, hlen⟩

set_option maxRecDepth 20000 in
theorem processRTPPacket_rtp_window_witness :
    processRTPPacket sampleRTP = sampleTS := by
  have h := processRTPPacket_rtp_window sampleRTP 12 0 (by decide) (by decide) (by decide)
      (by decide) (by decide) rfl
  rw [h]
  rfl

/-- Ring buffer of `udp_rtp.go:42-48`.  The Go backing slice
`buf [][]byte` of length `size` is modelled as a function from indices to
optional entries (`none` is Go's nil entry); every index the code reads
or writes is taken modulo `size`, exactly as in the source. -/
structure RingBuffer (α : Type) where
  buf : Nat → Option α
  size : Nat
  start : Nat
  count : Nat

/-- Embedding of `NewRingBuffer` (udp_rtp.go:50-55). -/
def NewRingBuffer (α : Type) (size : Nat) : RingBuffer α :=
  { buf := fun _ => none, size := size, start := 0, count := 0 }

/-- Embedding of `(*RingBuffer).Push` (udp_rtp.go:57-67). -/
def RingBuffer.Push (r : RingBuffer α) (item : α) : RingBuffer α :=
  if r.count < r.size then
    { r with
      buf := fun j => if j = (r.start + r.count) % r.size then some item else r.buf j
      count := r.count + 1 }
  else
    { r with
      buf := fun j => if j = r.start then some item else r.buf j
      start := (r.start + 1) % r.size }

/-- Embedding of `(*RingBuffer).GetAll` (udp_rtp.go:69-77): a newly
allocated list of the `count` logical entries, oldest first. -/
def RingBuffer.GetAll (r : RingBuffer α) : List (Option α) :=
  (List.range r.count).map (fun i => r.buf ((r.start + i) % r.size))

/-- Well-formedness of a ring buffer state: positive capacity, `start` in
range, `count` within capacity.  It holds for every state reachable from
`NewRingBuffer` with positive size. -/
def RingBuffer.WF (r : RingBuffer α) : Prop :=
  0 < r.size ∧ r.start < r.size ∧ r.count ≤ r.size

theorem RingBuffer.push_size (r : RingBuffer α) (x : α) : (r.Push x).size = r.size := by
  unfold RingBuffer.Push
  split <;> rfl

theorem RingBuffer.push_wf (r : RingBuffer α) (x : α) (h : r.WF) : (r.Push x).WF := by
  obtain ⟨hs, hst, hc⟩ := h
  unfold RingBuffer.Push RingBuffer.WF
  split <;> dsimp only
  · exact ⟨hs, hst, by omega⟩
  · exact ⟨hs, Nat.mod_lt _ hs, hc⟩

theorem RingBuffer.getAll_length (r : RingBuffer α) : r.GetAll.length = r.count := by
  simp [RingBuffer.GetAll]

theorem mod_shift_ne {n s i c : Nat} (hic : i < c) (hcn : c < n) :
    (s + i) % n ≠ (s + c) % n := by
  intro h
  have h2 : i ≡ c [MOD n] := Nat.ModEq.add_left_cancel' s h
  have h3 : n ∣ c - i := (Nat.modEq_iff_dvd' (Nat.le_of_lt hic)).mp h2
  have h4 : n ≤ c - i := Nat.le_of_dvd (by omega) h3
  omega

theorem map_range_set_lt {α : Type} (n s c : Nat) (b : Nat → Option α) (x : α)
    (hc : c < n) :
    (List.range (c+1)).map
        (fun i => if (s + i) % n = (s + c) % n then some x else b ((s + i) % n))
      = (List.range c).map (fun i => b ((s + i) % n)) ++ [some x] := by
  rw [List.range_succ, List.map_append]
  congr 1
  · apply List.map_congr_left
    intro i hi
    rw [List.mem_range] at hi
    rw [if_neg (mod_shift_ne hi hc)]
  · simp

theorem map_range_shift_full {α : Type} (m s : Nat) (b : Nat → Option α) (x : α)
    (hs : s < m + 1) :
    (List.range (m+1)).map
        (fun i => if ((s + 1) % (m+1) + i) % (m+1) = s then some x
                  else b (((s + 1) % (m+1) + i) % (m+1)))
      = ((List.range (m+1)).map (fun i => b ((s + i) % (m+1)))).tail ++ [some x] := by
  have hL : (List.range (m+1)).map
        (fun i => if ((s + 1) % (m+1) + i) % (m+1) = s then some x
                  else b (((s + 1) % (m+1) + i) % (m+1)))
      = (List.range (m+1)).map
        (fun i => if (s + 1 + i) % (m+1) = s then some x else b ((s + 1 + i) % (m+1))) := by
    apply List.map_congr_left
    intro i _
    rw [Nat.mod_add_mod]
  have hR : ((List.range (m+1)).map (fun i => b ((s + i) % (m+1)))).tail
      = (List.range m).map (fun i => b ((s + Nat.succ i) % (m+1))) := by
    rw [List.range_succ_eq_map, List.map_cons, List.tail_cons, List.map_map]
    rfl
  rw [hL, hR, List.range_succ, List.map_append]
  congr 1
  · apply List.map_congr_left
    intro i hi
    rw [List.mem_range] at hi
    have h0 : (s + 0) % (m+1) ≠ (s + (1 + i)) % (m+1) :=
      mod_shift_ne (by omega) (by omega)
    rw [Nat.add_zero, Nat.mod_eq_of_lt hs] at h0
    have hne : (s + 1 + i) % (m+1) ≠ s := by
      intro hEq
      apply h0
      rw [show s + (1 + i) = s + 1 + i by omega, hEq]
    rw [if_neg hne, show s + 1 + i = s + Nat.succ i by omega]
  · have hlast : (s + 1 + m) % (m+1) = s := by
      rw [show s + 1 + m = s + (m+1) by omega, Nat.add_mod_right, Nat.mod_eq_of_lt hs]
    simp [hlast]

theorem RingBuffer.getAll_push (r : RingBuffer α) (x : α) (hwf : r.WF) :
    (r.Push x).GetAll =
      if r.count < r.size then r.GetAll ++ [some x] else r.GetAll.tail ++ [some x] := by
  obtain ⟨hs, hst, hc⟩ := hwf
  by_cases hlt : r.count < r.size
  · rw [if_pos hlt]
    unfold RingBuffer.Push
    rw [if_pos hlt]
    unfold RingBuffer.GetAll
    dsimp only
    exact map_range_set_lt r.size r.start r.count r.buf x hlt
  · rw [if_neg hlt]
    have hceq : r.count = r.size := Nat.le_antisymm hc (Nat.le_of_not_lt hlt)
    obtain ⟨m, hm⟩ : ∃ m, r.size = m + 1 := ⟨r.size - 1, by omega⟩
    unfold RingBuffer.Push
    rw [if_neg hlt]
    unfold RingBuffer.GetAll
    dsimp only
    rw [hceq, hm]
    exact map_range_shift_full m r.start r.buf x (by omega)

/-- Repeated push: fold of `Push` over a frame list, oldest first. -/
def pushAll (r : RingBuffer α) (fs : List α) : RingBuffer α := fs.foldl RingBuffer.Push r

/-- Last `n` elements of a list. -/
def takeLast (n : Nat) (l : List α) : List α := l.drop (l.length - n)

theorem takeLast_of_le {l : List α} {n : Nat} (h : l.length ≤ n) : takeLast n l = l := by
  unfold takeLast
  rw [Nat.sub_eq_zero_of_le h, List.drop_zero]

theorem takeLast_cons {l : List α} {n : Nat} (a : α) (h : n ≤ l.length) :
    takeLast n (a :: l) = takeLast n l := by
  unfold takeLast
  rw [List.length_cons, show l.length + 1 - n = (l.length - n) + 1 by omega,
    List.drop_succ_cons]

theorem pushAll_getAll (fs : List α) (r : RingBuffer α) (hwf : r.WF) :
    (pushAll r fs).GetAll = takeLast r.size (r.GetAll ++ fs.map some) := by
  induction fs generalizing r with
  | nil =>
    have hlen : r.GetAll.length ≤ r.size := by
      rw [r.getAll_length]
      exact hwf.2.2
    simp only [pushAll, List.foldl_nil, List.map_nil, List.append_nil]
    exact (takeLast_of_le hlen).symm
  | cons x fs ih =>
    have hwf' := r.push_wf x hwf
    have hstep : pushAll r (x :: fs) = pushAll (r.Push x) fs := rfl
    rw [hstep, ih _ hwf', RingBuffer.push_size, r.getAll_push x hwf]
    by_cases hlt : r.count < r.size
    · rw [if_pos hlt, List.append_assoc]
      rfl
    · rw [if_neg hlt]
      have hceq : r.count = r.size := Nat.le_antisymm hwf.2.2 (Nat.le_of_not_lt hlt)
      have hpos : 0 < r.size := hwf.1
      have hne : r.GetAll ≠ [] := by
        intro hE
        have hL := r.getAll_length
        rw [hE] at hL
        simp at hL
        omega
      obtain ⟨g0, G, hG⟩ := List.exists_cons_of_ne_nil hne
      have hGlen : G.length = r.size - 1 := by
        have hL := r.getAll_length
        rw [hG] at hL
        simp at hL
        omega
      rw [hG]
      simp only [List.tail_cons, List.map_cons, List.cons_append, List.append_assoc,
        List.singleton_append, List.nil_append]
      have hlen2 : r.size ≤ (G ++ some x :: fs.map some).length := by
        rw [List.length_append, List.length_cons, List.length_map]
        omega
      rw [takeLast_cons g0 hlen2]

/-- C3: after pushing the frames `fs` in order into a fresh ring buffer
of capacity `N ≥ 1`, `GetAll` returns a snapshot of length
`min (len fs) N` holding the last `min (len fs) N` pushed frames in
insertion order, oldest first. -/
theorem ringBuffer_snapshot {α : Type} (N : Nat) (fs : List α) (hN : 1 ≤ N) :
    (pushAll (NewRingBuffer α N) fs).GetAll = (fs.drop (fs.length - N)).map some ∧
      (pushAll (NewRingBuffer α N) fs).GetAll.length = min fs.length N := by
  have hwf : (NewRingBuffer α N).WF := ⟨hN, hN, Nat.zero_le N⟩
  have h := pushAll_getAll fs (NewRingBuffer α N) hwf
  have hnil : (NewRingBuffer α N).GetAll = [] := rfl
  rw [hnil, List.nil_append] at h
  have hsize : (NewRingBuffer α N).size = N := rfl
  rw [hsize] at h
  constructor
  · rw [h]
    unfold takeLast
    rw [List.length_map, ← List.map_drop]
  · rw [h]
    unfold takeLast
    rw [List.length_drop, List.length_map]
    omega

theorem ringBuffer_snapshot_witness :
    (pushAll (NewRingBuffer Nat 2) [10, 20, 30]).GetAll = [some 20, some 30] := by
  rw [(ringBuffer_snapshot 2 [10, 20, 30] (by decide)).1]
  decide

/-- Frames are byte lists. -/
abbrev Frame := List Byte

/-- Client queue capacity: `ServeHTTP` creates every client channel with
buffer 4096 (udp_rtp.go:534). -/
def clientQueueCap : Nat := 4096

/-- Non-blocking buffered-channel send, the `select`/`default` idiom of
the source: succeeds iff the buffer is not full. -/
def sendNonBlock (cap : Nat) (q : List Frame) (x : Frame) : List Frame × Bool :=
  if q.length < cap then (q ++ [x], true) else (q, false)

/-- Non-blocking buffered-channel receive: removes the oldest element
when present. -/
def recvNonBlock (q : List Frame) : List Frame :=
  match q with
  | [] => []
  | _ :: t => t

/-- Hub state touched by `broadcast`, specialised to one attached client;
the per-client fan-out body of udp_rtp.go:420-440 runs independently per
client. -/
structure BHub where
  packetCount : Nat
  dropCount : Nat
  lastFrame : Option Frame
  cacheBuffer : RingBuffer Frame
  state : Nat
  clientQueue : List Frame

/-- Embedding of `(*StreamHub).broadcast` (udp_rtp.go:392-441) for a hub
with one attached client: update packet count, last frame, ring and
playing state under the lock, then fan out non-blockingly; on overflow
count the drop and, on every 100th drop, evict one queued frame and
re-enqueue `LastFrame`. -/
def broadcast (h : BHub) (data : Frame) : BHub :=
  let h1 : BHub :=
    { h with
      packetCount := h.packetCount + 1
      lastFrame := some data
      cacheBuffer := h.cacheBuffer.Push data
      state := StatePlaying }
  match sendNonBlock clientQueueCap h1.clientQueue data with
  | (q, true) => { h1 with clientQueue := q }
  | (_, false) =>
    if (h1.dropCount + 1) % 100 = 0 then
      match h1.lastFrame with
      | none => { h1 with dropCount := h1.dropCount + 1
                          clientQueue := recvNonBlock h1.clientQueue }
      | some lf => { h1 with dropCount := h1.dropCount + 1
                             clientQueue :=
                               (sendNonBlock clientQueueCap
                                 (recvNonBlock h1.clientQueue) lf).1 }
    else { h1 with dropCount := h1.dropCount + 1 }

/-- C2 (amended): broadcasting a new frame to a client whose queue
already holds 4096 pending frames never blocks, drops the frame and
increments the drop count by exactly 1, and leaves the queue contents
unchanged whenever the incremented drop count is not a multiple of 100;
on every 100th drop the code instead evicts the oldest queued frame and
re-enqueues the just-stored last frame. -/
theorem broadcast_overflow (h : BHub) (data : Frame)
    (hfull : h.clientQueue.length = 4096)
    (hmod : (h.dropCount + 1) % 100 ≠ 0) :
    (broadcast h data).clientQueue = h.clientQueue ∧
      (broadcast h data).dropCount = h.dropCount + 1 ∧
      (broadcast h data).packetCount = h.packetCount + 1 := by
  have hsend : sendNonBlock clientQueueCap h.clientQueue data = (h.clientQueue, false) := by
    unfold sendNonBlock clientQueueCap
    rw [hfull, if_neg (by omega)]
  simp only [broadcast, hsend]
  rw [if_neg hmod]
  exact ⟨rfl, rfl, rfl⟩

/-- Hub state for the C2 counterexample: a saturated client queue with a
distinguishable oldest frame, and drop count 99 so that the next drop is
the 100th. -/
def c2Hub : BHub :=
  { packetCount := 0
    dropCount := 99
    lastFrame := some [5]
    cacheBuffer := NewRingBuffer Frame 8192
    state := StatePlaying
    clientQueue := [1] :: List.replicate 4095 [0] }

theorem broadcast_overflow_pulse (h : BHub) (data : Frame)
    (hfull : h.clientQueue.length = 4096)
    (hmod : (h.dropCount + 1) % 100 = 0) :
    (broadcast h data).clientQueue =
      (sendNonBlock clientQueueCap (recvNonBlock h.clientQueue) data).1 := by
  have hsend : sendNonBlock clientQueueCap h.clientQueue data = (h.clientQueue, false) := by
    unfold sendNonBlock clientQueueCap
    rw [hfull, if_neg (by omega)]
  simp only [broadcast, hsend]
  rw [if_pos hmod]

theorem c2Hub_queue_length : c2Hub.clientQueue.length = 4096 := by
  show ([1] :: List.replicate 4095 [0] : List Frame).length = 4096
  rw [List.length_cons, List.length_replicate]

/-- C2 counterexample: at drop count 99, a broadcast into a saturated
4096-frame queue changes the queue contents (oldest frame evicted, last
frame re-enqueued), refuting the claim that every overflow leaves the
client queue unchanged. -/
theorem broadcast_overflow_counterexample :
    (broadcast c2Hub [2]).clientQueue ≠ c2Hub.clientQueue := by
  have hp := broadcast_overflow_pulse c2Hub [2] c2Hub_queue_length rfl
  have hrecv : recvNonBlock c2Hub.clientQueue = List.replicate 4095 ([0] : Frame) := rfl
  have hlen2 : (List.replicate 4095 ([0] : Frame)).length = 4095 := List.length_replicate ..
  have hsend2 : (sendNonBlock clientQueueCap (List.replicate 4095 ([0] : Frame)) [2]).1
      = List.replicate 4095 ([0] : Frame) ++ [[2]] := by
    unfold sendNonBlock clientQueueCap
    rw [hlen2, if_pos (by omega)]
  rw [hp, hrecv, hsend2]
  show List.replicate 4095 ([0] : Frame) ++ [[2]] ≠ [1] :: List.replicate 4095 [0]
  intro hEq
  have h4095 : (4095 : Nat) = 4094 + 1 := by norm_num
  rw [h4095, List.replicate_succ, List.cons_append] at hEq
  injection hEq with h1 h2
  exact absurd h1 (by decide)

theorem broadcast_overflow_witness :
    (broadcast { c2Hub with dropCount := 0 } [2]).clientQueue = c2Hub.clientQueue ∧
      (broadcast { c2Hub with dropCount := 0 } [2]).dropCount = 1 ∧
      (broadcast { c2Hub with dropCount := 0 } [2]).packetCount = 1 := by
  have h := broadcast_overflow { c2Hub with dropCount := 0 } [2]
      c2Hub_queue_length (by norm_num)
  exact h

/-- Hub state observable by `Close` (udp_rtp.go:604-643): client queues
are identified by their connection ids, sockets by numeric ids;
`closedCh` records whether the one-shot `Closed` channel is closed. -/
structure CloseHubSt where
  closedCh : Bool
  udpConns : List Nat
  clients : Option (List (String × Nat))
  cacheBuffer : Option (RingBuffer Frame)
  lastFrame : Option Frame
  state : Nat

/-- Client queue ids of a hub state (none models Go's nil map, over
which the close loop iterates zero times). -/
def closeClientIDs (h : CloseHubSt) : List String :=
  match h.clients with
  | none => []
  | some cs => cs.map Prod.fst

/-- Embedding of `(*StreamHub).Close` (udp_rtp.go:604-643).  Besides the
new state it returns the list of client queues closed and the list of
sockets closed by this very call. -/
def StreamHubClose (h : CloseHubSt) : CloseHubSt × List String × List Nat :=
  if h.closedCh then (h, [], [])
  else
    ({ closedCh := true
       udpConns := []
       clients := none
       cacheBuffer := none
       lastFrame := none
       state := StateStopped }, closeClientIDs h, h.udpConns)

/-- C4: `Close` is idempotent — a second call returns the state unchanged
and closes no queue and no socket — and a first close of an open hub
closes exactly the client queues and the sockets present, empties the
clients table, drops ring and last frame, and leaves the state
Stopped. -/
theorem streamHubClose_idempotent (h : CloseHubSt) (hc : h.closedCh = false) :
    (StreamHubClose (StreamHubClose h).1).1 = (StreamHubClose h).1 ∧
    (StreamHubClose (StreamHubClose h).1).2 = ([], []) ∧
    (StreamHubClose h).2.1 = closeClientIDs h ∧
    (StreamHubClose h).2.2 = h.udpConns ∧
    (StreamHubClose h).1.closedCh = true ∧
    (StreamHubClose h).1.clients = none ∧
    (StreamHubClose h).1.cacheBuffer = none ∧
    (StreamHubClose h).1.lastFrame = none ∧
    (StreamHubClose h).1.udpConns = [] ∧
    (StreamHubClose h).1.state = StateStopped := by
  simp [StreamHubClose, hc]

/-- Concrete open hub for the C4 witness. -/
def c4Hub : CloseHubSt :=
  { closedCh := false
    udpConns := [7]
    clients := some [("a", 1)]
    cacheBuffer := some (NewRingBuffer Frame 8192)
    lastFrame := some [0]
    state := StatePlaying }

theorem streamHubClose_idempotent_witness :
    (StreamHubClose (StreamHubClose c4Hub).1).1 = (StreamHubClose c4Hub).1 ∧
    (StreamHubClose c4Hub).2.1 = ["a"] := by
  have h := streamHubClose_idempotent c4Hub rfl
  exact ⟨h.1, by rw [h.2.2.1]; rfl⟩

/-- One step of the hub control loop (udp_rtp.go:446-486) on a detach
request: given the clients table, the requested connection id and whether
an `OnEmpty` callback is installed, return the new table, the queues
closed, whether the hub was closed, and whether `OnEmpty` was invoked. -/
def runHandleRemove (clients : List (String × Nat)) (connID : String)
    (onEmptySet : Bool) : List (String × Nat) × List String × Bool × Bool :=
  let step : List (String × Nat) × List String :=
    match clients.lookup connID with
    | some _ => (clients.eraseP (fun c => c.1 == connID), [connID])
    | none => (clients, [])
  if step.1.isEmpty then (step.1, step.2, true, onEmptySet)
  else (step.1, step.2, false, false)

/-- C10: a detach request whose connection id is absent from the clients
table modifies no client entry and closes no queue; yet when the table is
empty at that moment the hub is still closed and the `OnEmpty` callback,
when installed, is still invoked. -/
theorem runHandleRemove_spurious (clients : List (String × Nat)) (connID : String)
    (onEmptySet : Bool) (habs : clients.lookup connID = none) :
    (runHandleRemove clients connID onEmptySet).1 = clients ∧
    (runHandleRemove clients connID onEmptySet).2.1 = [] ∧
    (runHandleRemove clients connID onEmptySet).2.2.1 = clients.isEmpty ∧
    (runHandleRemove clients connID onEmptySet).2.2.2 = (clients.isEmpty && onEmptySet) := by
  simp only [runHandleRemove, habs]
  cases hE : clients.isEmpty <;> simp [hE]

theorem runHandleRemove_spurious_witness :
    (runHandleRemove [] "ghost" true).2.2.1 = true ∧
    (runHandleRemove [] "ghost" true).2.2.2 = true := by
  have h := runHandleRemove_spurious [] "ghost" true rfl
  exact ⟨by rw [h.2.2.1]; rfl, by rw [h.2.2.2]; rfl⟩

/-- Embedding of `isMulticast` (udp_rtp.go:221-227): true for IPv4
addresses (four octets, standing for a non-nil `To4()`) whose first
octet lies in [224, 239]. -/
def isMulticast (ip : List Nat) : Bool :=
  if ip.length = 4 then decide (224 ≤ byteAt ip 0) && decide (byteAt ip 0 ≤ 239)
  else false

/-- Bind-outcome oracle for the network: which interface names resolve
(`net.InterfaceByName`), whether a multicast bind on a given interface
(`none` meaning the default interface) succeeds, and whether a plain
unicast bind succeeds. -/
structure NetEnv where
  ifaceExists : String → Bool
  mcastBindOk : Option String → Bool
  ucastBindOk : Bool

/-- Socket token: the interface the socket was bound on (`none` for the
default interface) and whether it is a unicast-fallback bind. -/
abbrev Conn := Option String × Bool

/-- Embedding of `listenMulticast` (udp_rtp.go:173-219): non-multicast
addresses are rejected outright; with no interface list, try a
default-interface multicast bind and fall back to unicast; with an
interface list, try a multicast bind per interface and fall back to
unicast when all fail. -/
def listenMulticast (env : NetEnv) (ip : List Nat) (ifaces : List String) :
    Except String Conn :=
  if !isMulticast ip then .error "multicast address required"
  else if ifaces.isEmpty then
    if env.mcastBindOk none then .ok (none, false)
    else if env.ucastBindOk then .ok (none, true)
    else .error "default bind failed"
  else
    match ifaces.find? (fun i => env.mcastBindOk (some i)) with
    | some i => .ok (some i, false)
    | none => if env.ucastBindOk then .ok (none, true) else .error "all binds failed"

/-- Per-address socket acquisition of `NewStreamHub`
(udp_rtp.go:137-158): with no interface list call `listenMulticast`
directly; otherwise try each named interface in order, skipping names
that do not resolve, and keep the first success; there is no further
fallback after the loop. -/
def newHubAddrConn (env : NetEnv) (ip : List Nat) (ifaces : List String) : Option Conn :=
  if ifaces.isEmpty then (listenMulticast env ip []).toOption
  else ifaces.findSome? (fun n =>
    if env.ifaceExists n then (listenMulticast env ip [n]).toOption else none)

/-- Socket list `NewStreamHub` ends up with (udp_rtp.go:130-163). -/
def newStreamHubConns (env : NetEnv) (addrs : List (List Nat)) (ifaces : List String) :
    List Conn :=
  addrs.filterMap (fun a => newHubAddrConn env a ifaces)

/-- Success predicate of `NewStreamHub` (udp_rtp.go:112-114, 161-163):
at least one address, and at least one socket bound. -/
def newStreamHubOk (env : NetEnv) (addrs : List (List Nat)) (ifaces : List String) : Bool :=
  !addrs.isEmpty && !(newStreamHubConns env addrs ifaces).isEmpty

/-- C5 (amended): `listenMulticast` rejects every non-multicast address
before attempting any bind, so hub construction on such an address fails
even when a plain unicast bind would succeed; the unicast fallback
applies only to multicast addresses whose multicast bind fails. -/
theorem nonMulticast_rejected (env : NetEnv) (ip : List Nat) (ifaces : List String)
    (hnm : isMulticast ip = false) :
    (∀ ifs, listenMulticast env ip ifs = .error "multicast address required") ∧
    newHubAddrConn env ip ifaces = none ∧
    newStreamHubOk env [ip] ifaces = false := by
  have hlm : ∀ ifs, listenMulticast env ip ifs = .error "multicast address required" := by
    intro ifs
    unfold listenMulticast
    rw [hnm]
    rfl
  have hconn : newHubAddrConn env ip ifaces = none := by
    unfold newHubAddrConn
    by_cases hif : ifaces.isEmpty = true
    · rw [if_pos hif, hlm]
      rfl
    · rw [if_neg hif]
      apply List.findSome?_eq_none_iff.mpr
      intro n _
      by_cases hex : env.ifaceExists n = true
      · rw [if_pos hex, hlm]
        rfl
      · rw [if_neg hex]
  refine ⟨hlm, hconn, ?_⟩
  unfold newStreamHubOk newStreamHubConns
  rw [List.filterMap_cons, hconn]
  rfl

/-- Fully permissive network environment: every interface name resolves
and every bind succeeds. -/
def envAllOk : NetEnv :=
  { ifaceExists := fun _ => true
    mcastBindOk := fun _ => true
    ucastBindOk := true }

/-- C5 counterexample: for the non-multicast address 192.168.0.1 in an
environment where the unicast bind succeeds, hub construction still
fails — the address is not accepted via a unicast fallback. -/
theorem nonMulticast_rejected_counterexample :
    envAllOk.ucastBindOk = true ∧
    newStreamHubOk envAllOk [[192, 168, 0, 1]] [] = false := by
  exact ⟨rfl, rfl⟩

theorem nonMulticast_rejected_witness :
    newHubAddrConn envAllOk [10, 0, 0, 1] ["eth0"] = none ∧
    newStreamHubOk envAllOk [[10, 0, 0, 1]] ["eth0"] = false := by
  have h := nonMulticast_rejected envAllOk [10, 0, 0, 1] ["eth0"] rfl
  exact ⟨h.2.1, h.2.2⟩

/-- Per-address socket acquisition of `UpdateInterfaces`
(udp_rtp.go:778-809): try each named interface in order, skipping names
that do not resolve; when none yields a socket, additionally try the
default interface. -/
def updateAddrConn (env : NetEnv) (ip : List Nat) (ifaces : List String) : Option Conn :=
  match ifaces.findSome? (fun n =>
      if env.ifaceExists n then (listenMulticast env ip [n]).toOption else none) with
  | some c => some c
  | none => (listenMulticast env ip []).toOption

/-- Hub state touched by `UpdateInterfaces`. -/
structure UIHubSt where
  addrList : List (List Nat)
  udpConns : List Conn
  clients : List (String × Nat)
  cacheBuffer : RingBuffer Frame
  lastFrame : Option Frame

/-- Embedding of `(*StreamHub).UpdateInterfaces` (udp_rtp.go:771-827):
returns the new state, the list of old sockets closed by the call, and
the success flag.  On failure (no new socket bound) the state is
returned unchanged and no socket is closed; on success the old sockets
are closed and replaced by the new list. -/
def UpdateInterfaces (env : NetEnv) (h : UIHubSt) (ifaces : List String) :
    UIHubSt × List Conn × Bool :=
  if (h.addrList.filterMap (fun a => updateAddrConn env a ifaces)).isEmpty then
    (h, [], false)
  else
    ({ h with udpConns := h.addrList.filterMap (fun a => updateAddrConn env a ifaces) },
      h.udpConns, true)

/-- C8: `UpdateInterfaces` succeeds iff at least one address yields a new
socket under the given interface list; on success the old sockets are
exactly the ones closed and the new ones replace them; in every case the
clients table, the ring buffer, the last frame and the address list are
left unchanged, and on failure the socket list is also unchanged. -/
theorem updateInterfaces_spec (env : NetEnv) (h : UIHubSt) (ifaces : List String) :
    ((UpdateInterfaces env h ifaces).2.2 = true ↔
        ∃ a ∈ h.addrList, (updateAddrConn env a ifaces).isSome) ∧
    (UpdateInterfaces env h ifaces).1.clients = h.clients ∧
    (UpdateInterfaces env h ifaces).1.cacheBuffer = h.cacheBuffer ∧
    (UpdateInterfaces env h ifaces).1.lastFrame = h.lastFrame ∧
    (UpdateInterfaces env h ifaces).1.addrList = h.addrList ∧
    ((UpdateInterfaces env h ifaces).2.2 = false →
      (UpdateInterfaces env h ifaces).1 = h ∧
        (UpdateInterfaces env h ifaces).2.1 = []) ∧
    ((UpdateInterfaces env h ifaces).2.2 = true →
      (UpdateInterfaces env h ifaces).1.udpConns
          = h.addrList.filterMap (fun a => updateAddrConn env a ifaces) ∧
        (UpdateInterfaces env h ifaces).2.1 = h.udpConns) := by
  unfold UpdateInterfaces
  by_cases hE : (h.addrList.filterMap (fun a => updateAddrConn env a ifaces)).isEmpty = true
  · rw [if_pos hE]
    have hnil : h.addrList.filterMap (fun a => updateAddrConn env a ifaces) = [] :=
      List.isEmpty_iff.mp hE
    rw [List.filterMap_eq_nil_iff] at hnil
    refine ⟨?_, rfl, rfl, rfl, rfl, fun _ => ⟨rfl, rfl⟩,
      fun hcontra => absurd hcontra (by simp)⟩
    constructor
    · intro hfalse
      exact absurd hfalse (by simp)
    · rintro ⟨a, ha, hsome⟩
      rw [hnil a ha] at hsome
      simp at hsome
  · rw [if_neg hE]
    have hne : h.addrList.filterMap (fun a => updateAddrConn env a ifaces) ≠ [] := by
      intro hnil2
      apply hE
      rw [hnil2]
      rfl
    refine ⟨?_, rfl, rfl, rfl, rfl, fun hcontra => absurd hcontra (by simp),
      fun _ => ⟨rfl, rfl⟩⟩
    constructor
    · intro _
      by_contra hno
      push_neg at hno
      apply hne
      rw [List.filterMap_eq_nil_iff]
      intro a ha
      exact Option.not_isSome_iff_eq_none.mp (by simpa using hno a ha)
    · intro _
      rfl

/-- Concrete hub state for the C8 witness. -/
def c8Hub : UIHubSt :=
  { addrList := [[239, 0, 0, 1]]
    udpConns := [(none, false)]
    clients := [("a", 1)]
    cacheBuffer := NewRingBuffer Frame 8192
    lastFrame := none }

theorem updateInterfaces_spec_witness :
    (UpdateInterfaces envAllOk c8Hub ["eth0"]).2.2 = true ∧
    (UpdateInterfaces envAllOk c8Hub ["eth0"]).1.clients = c8Hub.clients ∧
    (UpdateInterfaces envAllOk c8Hub ["eth0"]).2.1 = c8Hub.udpConns := by
  have h := updateInterfaces_spec envAllOk c8Hub ["eth0"]
  have hs : (UpdateInterfaces envAllOk c8Hub ["eth0"]).2.2 = true :=
    h.1.mpr ⟨[239, 0, 0, 1], by simp [c8Hub], rfl⟩
  exact ⟨hs, h.2.1, (h.2.2.2.2.2.2 hs).2⟩

/-- Wakeup events observed by a waiter blocked in `WaitForPlaying`:
either the request context is cancelled, or the condition variable fires
and the waiter re-reads the hub's closed flag and state. -/
inductive WEvent
  | cancel
  | wake (closed : Bool) (state : Nat)

/-- Waiting loop of `WaitForPlaying` (udp_rtp.go:671-689): while the
state is Stopped and the hub is open, wait for the next event; a
cancellation returns false; a wakeup to Error returns false, a wakeup to
Playing returns true, and any other wakeup re-checks the loop condition;
on loop exit the result is `!closed && state == Playing`.  The value
`none` models a wait that blocks past the supplied events. -/
def wfpLoop : Bool → Nat → List WEvent → Option Bool
  | closed, st, [] =>
    if st = StateStopped ∧ closed = false then none
    else some (!closed && decide (st = StatePlaying))
  | closed, st, e :: rest =>
    if st = StateStopped ∧ closed = false then
      match e with
      | .cancel => some false
      | .wake c s =>
        if s = StateError then some false
        else if s = StatePlaying then some true
        else wfpLoop c s rest
    else some (!closed && decide (st = StatePlaying))

/-- Embedding of `(*StreamHub).WaitForPlaying` (udp_rtp.go:660-690),
parameterised by the hub's closed flag and state at entry and by the
events the waiter subsequently observes. -/
def WaitForPlaying (closed : Bool) (st : Nat) (evs : List WEvent) : Option Bool :=
  if closed = true ∨ st = StateError then some false
  else if st = StatePlaying then some true
  else wfpLoop closed st evs

theorem wfpLoop_exit (closed : Bool) (st : Nat) (evs : List WEvent)
    (h : ¬(st = StateStopped ∧ closed = false)) :
    wfpLoop closed st evs = some (!closed && decide (st = StatePlaying)) := by
  cases evs with
  | nil =>
    simp only [wfpLoop]
    rw [if_neg h]
  | cons e rest =>
    simp only [wfpLoop]
    rw [if_neg h]

/-- C6: with no events, `WaitForPlaying` returns true iff the hub is open
and currently Playing; it returns false when the hub is closed or the
state is Error; from an open Stopped hub it blocks (no result without an
event), and then: context cancellation returns false, a wakeup to
Playing returns true, a wakeup to Error returns false, and a wakeup that
observes the hub closed (state Stopped, as `Close` leaves it) returns
false. -/
theorem waitForPlaying_spec (closed : Bool) (st : Nat) :
    (WaitForPlaying closed st [] = some true ↔ closed = false ∧ st = StatePlaying) ∧
    (closed = true → ∀ evs, WaitForPlaying closed st evs = some false) ∧
    (st = StateError → ∀ evs, WaitForPlaying closed st evs = some false) ∧
    (closed = false → st = StatePlaying → ∀ evs, WaitForPlaying closed st evs = some true) ∧
    (closed = false → st = StateStopped →
      WaitForPlaying closed st [] = none ∧
      (∀ rest, WaitForPlaying closed st (WEvent.cancel :: rest) = some false) ∧
      (∀ c rest, WaitForPlaying closed st (WEvent.wake c StatePlaying :: rest) = some true) ∧
      (∀ c rest, WaitForPlaying closed st (WEvent.wake c StateError :: rest) = some false) ∧
      (∀ rest, WaitForPlaying closed st (WEvent.wake true StateStopped :: rest)
        = some false)) := by
  refine ⟨?_, ?_, ?_, ?_, ?_⟩
  · cases closed with
    | true => simp [WaitForPlaying]
    | false =>
      by_cases hE : st = StateError
      · simp [WaitForPlaying, hE, StateError, StatePlaying]
      · by_cases hP : st = StatePlaying
        · simp [WaitForPlaying, hP, hE, StatePlaying, StateError]
        · by_cases hS : st = StateStopped
          · simp [WaitForPlaying, wfpLoop, hS, hE, hP, StateStopped, StatePlaying, StateError]
          · simp [WaitForPlaying, wfpLoop, hS, hE, hP]
  · intro hc evs
    simp [WaitForPlaying, hc]
  · intro hE evs
    simp [WaitForPlaying, hE]
  · intro hc hP evs
    simp [WaitForPlaying, hc, hP, StatePlaying, StateError]
  · intro hc hS
    subst hc hS
    refine ⟨?_, ?_, ?_, ?_, ?_⟩
    · simp [WaitForPlaying, wfpLoop, StateStopped, StatePlaying, StateError]
    · intro rest
      simp [WaitForPlaying, wfpLoop, StateStopped, StatePlaying, StateError]
    · intro c rest
      simp [WaitForPlaying, wfpLoop, StateStopped, StatePlaying, StateError]
    · intro c rest
      simp [WaitForPlaying, wfpLoop, StateStopped, StatePlaying, StateError]
    · intro rest
      have hx := wfpLoop_exit true StateStopped rest (by simp)
      simp only [StateStopped, StatePlaying, Bool.not_true, Bool.false_and] at hx
      simp [WaitForPlaying, wfpLoop, StateStopped, StatePlaying, StateError, hx]

theorem waitForPlaying_spec_witness :
    WaitForPlaying false StateStopped [] = none ∧
    WaitForPlaying false StateStopped [WEvent.wake false StatePlaying] = some true := by
  have h := waitForPlaying_spec false StateStopped
  exact ⟨(h.2.2.2.2 rfl rfl).1, (h.2.2.2.2 rfl rfl).2.2.1 false []⟩

/-- Registry hub object: an allocation identity plus the closed flag. -/
structure RHub where
  id : Nat
  closed : Bool
deriving DecidableEq

/-- Process-wide registry `MultiChannelHub` (udp_rtp.go:695-706).  The
map from key to hub is modelled as a function, matching Go map
semantics; `nextId` supplies the identity of the next hub allocation so
that distinct allocations are distinguishable objects. -/
structure MCRegistry where
  hubs : String → Option RHub
  nextId : Nat

/-- Embedding of `(*MultiChannelHub).HubKey` (udp_rtp.go:709-717)
without the final md5-hex fingerprinting: the key string `addr` or
`addr@if1,if2,...`.  The md5 hex digest is a deterministic function of
this string, so equal inputs give equal keys exactly as here. -/
def HubKey (udpAddr : String) (ifaces : List String) : String :=
  if ifaces.length > 0 then udpAddr ++ "@" ++ String.intercalate "," ifaces
  else udpAddr

/-- Embedding of `(*MultiChannelHub).GetOrCreateHub`
(udp_rtp.go:719-744): return the mapped hub when present and not closed;
otherwise create a fresh hub (socket-bind success assumed; a failed
construction returns an error and leaves the registry unchanged, which
C7 does not exercise), install it under the key and return it. -/
def GetOrCreateHub (m : MCRegistry) (udpAddr : String) (ifaces : List String) :
    MCRegistry × RHub :=
  match m.hubs (HubKey udpAddr ifaces) with
  | some hub =>
    if hub.closed = false then (m, hub)
    else
      ({ hubs := fun k => if k = HubKey udpAddr ifaces then some ⟨m.nextId, false⟩
                          else m.hubs k
         nextId := m.nextId + 1 }, ⟨m.nextId, false⟩)
  | none =>
      ({ hubs := fun k => if k = HubKey udpAddr ifaces then some ⟨m.nextId, false⟩
                          else m.hubs k
         nextId := m.nextId + 1 }, ⟨m.nextId, false⟩)

/-- Embedding of `(*MultiChannelHub).RemoveHubEx` (udp_rtp.go:750-766):
remove the key from the map when present; the removed hub is then
closed.  The control loop reaches it through the `OnEmpty` callback
after the last client detaches (udp_rtp.go:466-472, 736-738). -/
def RemoveHubEx (m : MCRegistry) (udpAddr : String) (ifaces : List String) : MCRegistry :=
  match m.hubs (HubKey udpAddr ifaces) with
  | some _ =>
      { m with hubs := fun k => if k = HubKey udpAddr ifaces then none else m.hubs k }
  | none => m

/-- Registry well-formedness: every mapped hub's identity is below the
next allocation id.  It holds for the empty registry and is preserved by
the registry operations. -/
def RegWF (m : MCRegistry) : Prop :=
  ∀ k hub, m.hubs k = some hub → hub.id < m.nextId

theorem getOrCreateHub_lookup (m : MCRegistry) (A : String) (I : List String)
    (hwf : RegWF m) :
    ((GetOrCreateHub m A I).1).hubs (HubKey A I) = some (GetOrCreateHub m A I).2 ∧
    (GetOrCreateHub m A I).2.closed = false ∧
    (GetOrCreateHub m A I).2.id < ((GetOrCreateHub m A I).1).nextId := by
  unfold GetOrCreateHub
  cases hlook : m.hubs (HubKey A I) with
  | none =>
    simp only [hlook]
    refine ⟨by simp, by simp, by simp⟩
  | some hub =>
    simp only [hlook]
    by_cases hcl : hub.closed = false
    · rw [if_pos hcl]
      exact ⟨hlook, hcl, hwf _ _ hlook⟩
    · rw [if_neg hcl]
      refine ⟨by simp, by simp, by simp⟩

/-- C7: a repeated `GetOrCreate` with the same address and interface
list and no intervening detach returns the same live hub and leaves the
registry unchanged; once the hub has been reaped (`RemoveHubEx`, as the
`OnEmpty` callback performs when the last client detaches and the hub
closes), the same `GetOrCreate` returns a different hub object. -/
theorem getOrCreateHub_spec (m : MCRegistry) (A : String) (I : List String)
    (hwf : RegWF m) :
    GetOrCreateHub (GetOrCreateHub m A I).1 A I = GetOrCreateHub m A I ∧
    (GetOrCreateHub (RemoveHubEx (GetOrCreateHub m A I).1 A I) A I).2
      ≠ (GetOrCreateHub m A I).2 := by
  obtain ⟨hlook1, hcl1, hid1⟩ := getOrCreateHub_lookup m A I hwf
  generalize hp : GetOrCreateHub m A I = p at hlook1 hcl1 hid1 ⊢
  obtain ⟨m1, h1⟩ := p
  dsimp only at hlook1 hcl1 hid1 ⊢
  constructor
  · unfold GetOrCreateHub
    simp only [hlook1]
    rw [if_pos hcl1]
  · have hrem1 : (RemoveHubEx m1 A I).hubs (HubKey A I) = none := by
      unfold RemoveHubEx
      simp only [hlook1]
      simp
    have hrem2 : (RemoveHubEx m1 A I).nextId = m1.nextId := by
      unfold RemoveHubEx
      simp only [hlook1]
    intro hEq
    have hsec : (GetOrCreateHub (RemoveHubEx m1 A I) A I).2
        = ⟨(RemoveHubEx m1 A I).nextId, false⟩ := by
      generalize RemoveHubEx m1 A I = m2 at hrem1 ⊢
      unfold GetOrCreateHub
      simp only [hrem1]
    rw [hsec, hrem2] at hEq
    have hida : m1.nextId = h1.id := congrArg RHub.id hEq
    omega

/-- Concrete empty registry for the C7 witness. -/
def emptyRegistry : MCRegistry := { hubs := fun _ => none, nextId := 0 }

theorem getOrCreateHub_spec_witness :
    GetOrCreateHub (GetOrCreateHub emptyRegistry "239.0.0.1:1234" []).1 "239.0.0.1:1234" []
        = GetOrCreateHub emptyRegistry "239.0.0.1:1234" [] ∧
    (GetOrCreateHub (RemoveHubEx (GetOrCreateHub emptyRegistry "239.0.0.1:1234" []).1
        "239.0.0.1:1234" []) "239.0.0.1:1234" []).2
      ≠ (GetOrCreateHub emptyRegistry "239.0.0.1:1234" []).2 := by
  exact getOrCreateHub_spec emptyRegistry "239.0.0.1:1234" []
    (by intro k hub h; simp [emptyRegistry] at h)
